import Mathlib

/-!
Shallow embedding of the comment-thread / notification / counter core of
`src/server.js` (a MongoDB/Mongoose blog backend).

Document stores are modelled as lists of records; the Mongo operations used by
the source are modelled as first-match operations, matching Mongo semantics:
`findOne` is `List.find?`, `findOneAndDelete` removes the first matching
record, `findOneAndUpdate` updates the first matching record (`$pull` removes
every matching element from an array field, `$push` appends, `$inc` adds,
`$unset` clears, and a plain field mixed with update operators is cast by
Mongoose into a `$set`, i.e. an absolute assignment).

The asynchronous promise chains of the source are modelled sequentially in
program order; the recursive cascade of `deleteComments` is modelled as a
depth-first worklist whose per-node effects occur in the exact order of the
source (delete comment, pull from parent's children, delete the comment
notification, unset the first matching reply reference, update the blog),
each node's captured children being processed before any later sibling.
An uncaught null-property access in a promise chain (the source has several)
is modelled as an explicit `typeError` outcome; inside `deleteComments` the
surrounding `.catch` swallows it, which is modelled as a no-op.

The `Schema/*.js` files are imported by `src/server.js` but are not among the
sources; record fields and their defaults (`isReply := false`,
`children := []`, optional notification references) are modelled from their
uses in `src/server.js` and from the spec's data model.
-/

namespace BlogServer

/-- Remove the first element satisfying `p`, returning it (if any) together
with the remaining list.  Models `findOneAndDelete`. -/
def removeFirst (p : α → Bool) : List α → Option α × List α
  | [] => (none, [])
  | x :: xs =>
    if p x then (some x, xs)
    else
      let r := removeFirst p xs
      (r.1, x :: r.2)

/-- Update the first element satisfying `p` with `f`.  Models
`findOneAndUpdate`. -/
def updateFirst (p : α → Bool) (f : α → α) : List α → List α
  | [] => []
  | x :: xs => if p x then f x :: xs else x :: updateFirst p f xs

/-- A blog document: the fields of `Blog` used by the core
(`comments` array and the `activity` counters, with the author). -/
structure Blog where
  id : Nat
  author : Nat
  comments : List Nat
  total_likes : Int
  total_comments : Int
  total_parent_comments : Int
deriving DecidableEq, Repr

/-- Notification `type` field: `"like" | "comment" | "reply"`. -/
inductive NotifType
  | like
  | comment
  | reply
deriving DecidableEq, Repr

/-- A notification document, fields as used in `src/server.js`
(`comment`, `replied_on_comment` and `reply` are optional references). -/
structure Notification where
  type : NotifType
  blog : Nat
  notification_for : Nat
  user : Nat
  comment : Option Nat := none
  replied_on_comment : Option Nat := none
  reply : Option Nat := none
deriving DecidableEq, Repr

/-- A comment document, fields as used in `src/server.js`. -/
structure Comment where
  id : Nat
  blog_id : Nat
  blog_author : Nat
  comment : String
  commented_by : Nat
  parent : Option Nat := none
  isReply : Bool := false
  children : List Nat := []
deriving DecidableEq, Repr

/-- The database state: the three collections the core touches, plus a
counter supplying fresh `_id`s. -/
structure DB where
  blogs : List Blog
  comments : List Comment
  notifications : List Notification
  nextId : Nat
deriving DecidableEq, Repr

/-- The per-node body of `deleteComments` in `src/server.js` (lines 643-670),
run after `Comment.findOneAndDelete({ _id })` has found and removed the
comment `c`, leaving `remaining` in the comment collection.  In source order:

1. if `comment.parent`, `$pull` this id from the parent's `children`;
2. `Notification.findOneAndDelete({ comment: _id })`;
3. `Notification.findOneAndUpdate({ reply: _id }, { $unset: { reply: 1 } })`;
4. `Blog.findOneAndUpdate({ _id: comment.blog_id }, { $pull: { comments: _id },
   $inc: { "activity.total_comments": -1 },
   "activity.total_parent_comments": comment.parent ? 0 : -1 })` — note that
   the `total_parent_comments` entry sits OUTSIDE `$inc`, so Mongoose casts it
   to a `$set`: the counter is assigned `0` or `-1`, not decremented. -/
def deleteStep (c : Comment) (remaining : List Comment) (db : DB) : DB :=
  let comments1 :=
    match c.parent with
    | some p =>
        updateFirst (fun q => q.id == p)
          (fun q => { q with children := q.children.filter (fun i => i != c.id) })
          remaining
    | none => remaining
  let notifs1 := (removeFirst (fun n => n.comment == some c.id) db.notifications).2
  let notifs2 :=
    updateFirst (fun n => n.reply == some c.id) (fun n => { n with reply := none }) notifs1
  let blogs1 :=
    updateFirst (fun b => b.id == c.blog_id)
      (fun b =>
        { b with
          comments := b.comments.filter (fun i => i != c.id),
          total_comments := b.total_comments - 1,
          total_parent_comments := if c.parent.isSome then 0 else -1 })
      db.blogs
  { db with blogs := blogs1, comments := comments1, notifications := notifs2 }

/-- Depth-first worklist linearization of the recursive `deleteComments`:
each id is looked up with `findOneAndDelete`; a null result (the `.catch`
branch of the source) skips the node, otherwise the per-node `deleteStep`
runs and the node's captured `children` are processed next (the source
recurses into each child before any later sibling of the node). -/
def deleteCommentsList : List Nat → DB → DB
  | [], db => db
  | id :: rest, db =>
    match h : removeFirst (fun c => c.id == id) db.comments with
    | (none, _) => deleteCommentsList rest db
    | (some c, remaining) =>
        deleteCommentsList (c.children ++ rest) (deleteStep c remaining db)
termination_by ids db => (db.comments.length, ids.length)
decreasing_by
  · exact Prod.Lex.right _ (Nat.lt_succ_self _)
  · refine Prod.Lex.left _ _ ?_
    have hupd : ∀ (q : Comment → Bool) (g : Comment → Comment) (m : List Comment),
        (updateFirst q g m).length = m.length := by
      intro q g m
      induction m with
      | nil => rfl
      | cons a as ih => by_cases hq : q a <;> simp [updateFirst, hq, ih]
    have hrem : ∀ (m : List Comment) (x : Comment) (r : List Comment),
        removeFirst (fun c => c.id == id) m = (some x, r) → r.length + 1 = m.length := by
      intro m
      induction m with
      | nil => intro x r hx; simp [removeFirst] at hx
      | cons a as ih =>
        intro x r hx
        by_cases hq : (a.id == id)
        · simp [removeFirst, hq] at hx
          simp [hx.2]
        · simp [removeFirst, hq] at hx
          obtain ⟨h1, h2⟩ := hx
          cases r with
          | nil => simp at h2
          | cons b bs =>
            simp at h2
            have hx2 : removeFirst (fun c => c.id == id) as = (some x, bs) := by
              rw [← h1, ← h2.2]
            have hlen := ih x bs hx2
            simp only [List.length_cons]
            omega
    have hfound := hrem db.comments c remaining h
    simp only [deleteStep]
    cases c.parent <;> simp [hupd] <;> omega

/-- Function `deleteComments(_id)` of `src/server.js` lines 643-670. -/
def deleteComments (id : Nat) (db : DB) : DB :=
  deleteCommentsList [id] db

/-- Outcome of the `/delete-comment` route: the spec's error taxonomy plus the
`typeError` outcome of an uncaught null-property access in a promise chain
(no HTTP response is ever sent in that case).  `notFoundError` is part of the
spec's taxonomy; the code never produces it. -/
inductive DeleteResult
  | done
  | permissionError
  | notFoundError
  | typeError
deriving DecidableEq, Repr

/-- The `/delete-comment` route (lines 672-693): `Comment.findOne({ _id })`,
then the permission check `user_id == comment.commented_by || user_id ==
comment.blog_author`; on success it calls `deleteComments(_id)`.  When the
comment is absent, `comment.commented_by` dereferences null and the chain has
no `.catch`: modelled as `typeError` with the state unchanged. -/
def deleteCommentRoute (user_id : Nat) (id : Nat) (db : DB) : DeleteResult × DB :=
  match db.comments.find? (fun c => c.id == id) with
  | none => (DeleteResult.typeError, db)
  | some c =>
    if user_id == c.commented_by || user_id == c.blog_author then
      (DeleteResult.done, deleteComments id db)
    else
      (DeleteResult.permissionError, db)

/-- Outcome of the `/add-comment` route.  `validationError` is the 403 for
empty text; `typeError` models the uncaught null-property access when
`replying_to` names a missing parent (the `.then` dereferences the null
`replyingToCommentDoc`, so no notification is saved and no response sent). -/
inductive AddCommentResult
  | validationError
  | ok (comment_id : Nat)
  | typeError
deriving DecidableEq, Repr

/-- The blog update of `/add-comment` (line 561): `$push` the new comment id
onto `comments`, `$inc` `total_comments` by 1 and `total_parent_comments` by
`replying_to ? 0 : 1` (both increments correctly inside `$inc` here). -/
def blogAddCommentUpdate (cid : Nat) (replying : Bool) (b : Blog) : Blog :=
  { b with
    comments := b.comments ++ [cid],
    total_comments := b.total_comments + 1,
    total_parent_comments := b.total_parent_comments + (if replying then 0 else 1) }

/-- The `/add-comment` route (lines 537-589).  In source order: reject empty
text; save the new `Comment` (with `parent`/`isReply` set only when
`replying_to` is present); `Blog.findOneAndUpdate` applying
`blogAddCommentUpdate`; when replying, `$push` the new id onto the parent's
`children` and redirect the notification to the parent's `commented_by`;
save the `Notification` of type `reply`/`comment` (with
`replied_on_comment = replying_to` for replies); respond 200. -/
def addComment (user_id blog_id : Nat) (text : String) (blog_author : Nat)
    (replying_to : Option Nat) (db : DB) : AddCommentResult × DB :=
  if text.length == 0 then
    (AddCommentResult.validationError, db)
  else
    let cid := db.nextId
    let newC : Comment :=
      { id := cid, blog_id := blog_id, blog_author := blog_author, comment := text,
        commented_by := user_id, parent := replying_to, isReply := replying_to.isSome,
        children := [] }
    let comments1 := db.comments ++ [newC]
    let blogs1 :=
      updateFirst (fun b => b.id == blog_id)
        (blogAddCommentUpdate cid replying_to.isSome)
        db.blogs
    let db1 : DB :=
      { blogs := blogs1, comments := comments1, notifications := db.notifications,
        nextId := db.nextId + 1 }
    match replying_to with
    | none =>
        (AddCommentResult.ok cid,
          { db1 with
            notifications := db1.notifications ++
              [{ type := NotifType.comment, blog := blog_id,
                 notification_for := blog_author, user := user_id,
                 comment := some cid }] })
    | some pid =>
        match db1.comments.find? (fun q => q.id == pid) with
        | none => (AddCommentResult.typeError, db1)
        | some p =>
            let comments2 :=
              updateFirst (fun q => q.id == pid)
                (fun q => { q with children := q.children ++ [cid] }) db1.comments
            (AddCommentResult.ok cid,
              { db1 with
                comments := comments2,
                notifications := db1.notifications ++
                  [{ type := NotifType.reply, blog := blog_id,
                     notification_for := p.commented_by, user := user_id,
                     comment := some cid, replied_on_comment := some pid }] })

/-- Outcome of the `/like-blog` route; `ok` carries the `liked_by_user` flag
of the 200 response.  `typeError` models the uncaught null dereference of
`blog.author` when `isLikedByUser` is true and the blog is absent. -/
inductive LikeResult
  | ok (liked_by_user : Bool)
  | typeError
deriving DecidableEq, Repr

/-- The `/like-blog` route (lines 484-519).  `incrementVal = !isLikedByUser ?
1 : -1` is `$inc`-ed into `activity.total_likes`; then — as written in the
source — `if (isLikedByUser)` a like `Notification` is created (with
`notification_for` the blog's author, read from the pre-update document) and
`liked_by_user: true` is returned, `else` the notification matching
`{ user, blog, type: "like" }` is `findOneAndDelete`d and
`liked_by_user: false` is returned. -/
def likeBlog (user_id blog_id : Nat) (isLikedByUser : Bool) (db : DB) :
    LikeResult × DB :=
  let incrementVal : Int := if isLikedByUser then -1 else 1
  let blogs1 :=
    updateFirst (fun b => b.id == blog_id)
      (fun b => { b with total_likes := b.total_likes + incrementVal }) db.blogs
  let db1 : DB := { db with blogs := blogs1 }
  if isLikedByUser then
    match db.blogs.find? (fun b => b.id == blog_id) with
    | none => (LikeResult.typeError, db1)
    | some b =>
        (LikeResult.ok true,
          { db1 with
            notifications := db1.notifications ++
              [{ type := NotifType.like, blog := blog_id,
                 notification_for := b.author, user := user_id }] })
  else
    (LikeResult.ok false,
      { db1 with
        notifications :=
          (removeFirst
            (fun n =>
              n.user == user_id && n.blog == blog_id && n.type == NotifType.like)
            db1.notifications).2 })

/-- The tree invariant of the spec's data model: `is_reply == (parent != null)`
for every stored comment. -/
def treeInv (db : DB) : Prop :=
  ∀ c ∈ db.comments, c.isReply = c.parent.isSome

/-- Fixture blog: id 0, author 9, holding comment 1, with
`total_parent_comments` deliberately distinct from 0 and -1 so that an
absolute assignment of the counter is distinguishable from a decrement. -/
def blogTop : Blog :=
  { id := 0, author := 9, comments := [1], total_likes := 0,
    total_comments := 1, total_parent_comments := 5 }

/-- Fixture comment: top-level leaf comment 1 on blog 0, written by user 3. -/
def commentTop : Comment :=
  { id := 1, blog_id := 0, blog_author := 9, comment := "first", commented_by := 3 }

/-- Fixture notification: the creation notification of comment 1. -/
def notifTop : Notification :=
  { type := NotifType.comment, blog := 0, notification_for := 9, user := 3,
    comment := some 1 }

/-- Fixture database: one blog, one top-level leaf comment, its creation
notification. -/
def dbTopLeaf : DB :=
  { blogs := [blogTop], comments := [commentTop], notifications := [notifTop],
    nextId := 2 }

/-- Fixture database: one blog with a top-level comment 1 and its reply 2. -/
def dbReplyLeaf : DB :=
  { blogs := [{ id := 0, author := 9, comments := [1, 2], total_likes := 0,
                total_comments := 2, total_parent_comments := 5 }],
    comments :=
      [{ id := 1, blog_id := 0, blog_author := 9, comment := "first",
         commented_by := 3, children := [2] },
       { id := 2, blog_id := 0, blog_author := 9, comment := "re",
         commented_by := 4, parent := some 1, isReply := true }],
    notifications :=
      [{ type := NotifType.comment, blog := 0, notification_for := 9, user := 3,
         comment := some 1 },
       { type := NotifType.reply, blog := 0, notification_for := 3, user := 4,
         comment := some 2, replied_on_comment := some 1 }],
    nextId := 3 }

/-- Fixture database: blog 0 with top-level comment 1 (whose reply is 2) and a
second top-level comment 3; `total_comments = 3`, `total_parent_comments = 2`. -/
def dbTree : DB :=
  { blogs := [{ id := 0, author := 9, comments := [1, 2, 3], total_likes := 0,
                total_comments := 3, total_parent_comments := 2 }],
    comments :=
      [{ id := 1, blog_id := 0, blog_author := 9, comment := "first",
         commented_by := 3, children := [2] },
       { id := 2, blog_id := 0, blog_author := 9, comment := "re",
         commented_by := 4, parent := some 1, isReply := true },
       { id := 3, blog_id := 0, blog_author := 9, comment := "second",
         commented_by := 5 }],
    notifications :=
      [{ type := NotifType.comment, blog := 0, notification_for := 9, user := 3,
         comment := some 1 },
       { type := NotifType.reply, blog := 0, notification_for := 3, user := 4,
         comment := some 2, replied_on_comment := some 1 },
       { type := NotifType.comment, blog := 0, notification_for := 9, user := 5,
         comment := some 3 }],
    nextId := 4 }

/-- Fixture database: a single blog with no likes and no notifications. -/
def dbLike : DB :=
  { blogs := [{ id := 0, author := 9, comments := [], total_likes := 0,
                total_comments := 0, total_parent_comments := 0 }],
    comments := [], notifications := [], nextId := 1 }

/-- Fixture notification carrying a `reply` reference to comment 1. -/
def notifReplyRefA : Notification :=
  { type := NotifType.comment, blog := 0, notification_for := 9, user := 5,
    reply := some 1 }

/-- Second fixture notification carrying a `reply` reference to comment 1. -/
def notifReplyRefB : Notification :=
  { type := NotifType.comment, blog := 0, notification_for := 9, user := 6,
    reply := some 1 }

/-- Fixture database: one leaf comment and two notifications whose `reply`
references both point at it. -/
def dbTwoReplyRefs : DB :=
  { blogs := [],
    comments := [{ id := 1, blog_id := 0, blog_author := 9, comment := "c",
                   commented_by := 3 }],
    notifications := [notifReplyRefA, notifReplyRefB],
    nextId := 2 }

/-! ### Helper lemmas about the store primitives -/

theorem updateFirst_length (p : α → Bool) (f : α → α) (l : List α) :
    (updateFirst p f l).length = l.length := by
  induction l with
  | nil => rfl
  | cons a as ih => by_cases hp : p a <;> simp [updateFirst, hp, ih]

theorem updateFirst_of_find?_eq_none (p : α → Bool) (f : α → α) {l : List α}
    (h : l.find? p = none) : updateFirst p f l = l := by
  induction l with
  | nil => rfl
  | cons a as ih =>
    by_cases hp : p a
    · rw [List.find?_cons_of_pos _ hp] at h
      exact absurd h (by simp)
    · rw [List.find?_cons_of_neg _ hp] at h
      simp [updateFirst, hp, ih h]

theorem updateFirst_eq_of_find? (p : α → Bool) (f : α → α) {l : List α} {b : α}
    (h : l.find? p = some b) :
    ∃ pre post, l = pre ++ b :: post ∧ (∀ x ∈ pre, p x = false) ∧
      updateFirst p f l = pre ++ f b :: post := by
  induction l with
  | nil => simp at h
  | cons a as ih =>
    rw [List.find?_cons] at h
    by_cases hp : p a
    · simp [hp] at h
      subst h
      exact ⟨[], as, by simp, by simp, by simp [updateFirst, hp]⟩
    · simp [hp] at h
      obtain ⟨pre, post, h1, h2, h3⟩ := ih h
      refine ⟨a :: pre, post, by simp [h1], ?_, by simp [updateFirst, hp, h3]⟩
      intro x hx
      rcases List.mem_cons.mp hx with hx | hx
      · subst hx; exact eq_false_of_ne_true hp
      · exact h2 x hx

theorem updateFirst_mem {p : α → Bool} {f : α → α} {l : List α} {x : α}
    (h : x ∈ updateFirst p f l) : x ∈ l ∨ ∃ y ∈ l, x = f y := by
  induction l with
  | nil => simp [updateFirst] at h
  | cons a as ih =>
    by_cases hp : p a
    · simp [updateFirst, hp] at h
      rcases h with h | h
      · exact Or.inr ⟨a, by simp, h⟩
      · exact Or.inl (List.mem_cons_of_mem _ h)
    · simp only [updateFirst, if_neg hp, List.mem_cons] at h
      rcases h with h | h
      · exact Or.inl (by simp [h])
      · rcases ih h with h | ⟨y, hy, hxy⟩
        · exact Or.inl (List.mem_cons_of_mem _ h)
        · exact Or.inr ⟨y, List.mem_cons_of_mem _ hy, hxy⟩

theorem updateFirst_append_first_match (p : α → Bool) (f : α → α)
    {pre : List α} {post : List α} {x : α}
    (hpre : ∀ m ∈ pre, p m = false) (hx : p x = true) :
    updateFirst p f (pre ++ x :: post) = pre ++ f x :: post := by
  induction pre with
  | nil => simp [updateFirst, hx]
  | cons a as ih =>
    have ha : p a = false := hpre a (by simp)
    simp [updateFirst, ha]
    exact ih (fun m hm => hpre m (List.mem_cons_of_mem _ hm))

theorem removeFirst_fst_eq_find? (p : α → Bool) (l : List α) :
    (removeFirst p l).1 = l.find? p := by
  induction l with
  | nil => rfl
  | cons a as ih =>
    by_cases hp : p a <;> simp [removeFirst, List.find?_cons, hp, ih]

theorem removeFirst_of_find?_eq_none (p : α → Bool) {l : List α}
    (h : l.find? p = none) : removeFirst p l = (none, l) := by
  induction l with
  | nil => rfl
  | cons a as ih =>
    by_cases hp : p a
    · rw [List.find?_cons_of_pos _ hp] at h
      exact absurd h (by simp)
    · rw [List.find?_cons_of_neg _ hp] at h
      simp [removeFirst, hp, ih h]

theorem removeFirst_mem {p : α → Bool} {l : List α} {x : α}
    (h : x ∈ (removeFirst p l).2) : x ∈ l := by
  induction l with
  | nil => simp [removeFirst] at h
  | cons a as ih =>
    by_cases hp : p a
    · simp [removeFirst, hp] at h
      exact List.mem_cons_of_mem _ h
    · simp only [removeFirst, if_neg hp, List.mem_cons] at h
      rcases h with h | h
      · simp [h]
      · exact List.mem_cons_of_mem _ (ih h)

theorem removeFirst_not_mem {p : α → Bool} {l : List α} (hc : l.countP p ≤ 1) :
    ∀ x ∈ (removeFirst p l).2, p x = false := by
  induction l with
  | nil => intro x hx; simp [removeFirst] at hx
  | cons a as ih =>
    intro x hx
    by_cases hp : p a
    · simp only [removeFirst, if_pos hp] at hx
      rw [List.countP_cons_of_pos _ _ hp] at hc
      have hz : as.countP p = 0 := by omega
      exact eq_false_of_ne_true (List.countP_eq_zero.mp hz x hx)
    · simp only [removeFirst, if_neg hp, List.mem_cons] at hx
      rcases hx with hx | hx
      · subst hx; exact eq_false_of_ne_true hp
      · rw [List.countP_cons_of_neg _ _ hp] at hc
        exact ih hc x hx

theorem removeFirst_length_countP {p : α → Bool} {l : List α}
    (hc : l.countP p ≤ 1) :
    (removeFirst p l).2.length + l.countP p = l.length := by
  induction l with
  | nil => simp [removeFirst]
  | cons a as ih =>
    by_cases hp : p a
    · rw [List.countP_cons_of_pos _ _ hp] at hc ⊢
      simp only [removeFirst, if_pos hp, List.length_cons]
      omega
    · rw [List.countP_cons_of_neg _ _ hp] at hc ⊢
      simp only [removeFirst, if_neg hp, List.length_cons]
      have := ih hc
      omega

theorem find?_append_first_match (p : α → Bool) {pre post : List α} {x : α}
    (hpre : ∀ m ∈ pre, p m = false) (hx : p x = true) :
    (pre ++ x :: post).find? p = some x := by
  induction pre with
  | nil => simp [List.find?_cons, hx]
  | cons a as ih =>
    have ha : p a = false := hpre a (by simp)
    rw [List.cons_append, List.find?_cons_of_neg _ (by simp [ha])]
    exact ih (fun m hm => hpre m (List.mem_cons_of_mem _ hm))

theorem find?_append_of_some (p : α → Bool) {l₁ : List α} (l₂ : List α) {b : α}
    (h : l₁.find? p = some b) : (l₁ ++ l₂).find? p = some b := by
  induction l₁ with
  | nil => simp at h
  | cons a as ih =>
    by_cases hp : p a
    · rw [List.find?_cons_of_pos _ hp] at h
      rw [List.cons_append, List.find?_cons_of_pos _ hp]
      exact h
    · rw [List.find?_cons_of_neg _ hp] at h
      rw [List.cons_append, List.find?_cons_of_neg _ hp]
      exact ih h

theorem deleteCommentsList_nil (db : DB) : deleteCommentsList [] db = db := by
  rw [deleteCommentsList]

theorem deleteCommentsList_cons_none (id : Nat) (rest : List Nat) (db : DB)
    {l : List Comment}
    (h : removeFirst (fun c => c.id == id) db.comments = (none, l)) :
    deleteCommentsList (id :: rest) db = deleteCommentsList rest db := by
  rw [deleteCommentsList]
  split
  · rfl
  · next c rem heq => rw [h] at heq; cases heq

theorem deleteCommentsList_cons_some (id : Nat) (rest : List Nat) (db : DB)
    {c : Comment} {rem : List Comment}
    (h : removeFirst (fun q => q.id == id) db.comments = (some c, rem)) :
    deleteCommentsList (id :: rest) db =
      deleteCommentsList (c.children ++ rest) (deleteStep c rem db) := by
  rw [deleteCommentsList]
  split
  · next heq => rw [h] at heq; cases heq
  · next c2 rem2 heq =>
      rw [h] at heq
      cases heq
      rfl

theorem deleteComments_leaf_eq {id : Nat} {db : DB} {c : Comment}
    {rem : List Comment}
    (hfind : removeFirst (fun q => q.id == id) db.comments = (some c, rem))
    (hleaf : c.children = []) :
    deleteComments id db = deleteStep c rem db := by
  rw [deleteComments, deleteCommentsList_cons_some _ _ _ hfind, hleaf]
  exact deleteCommentsList_nil _

/-! ### Claim theorems -/

/-- C1.  The claim states that each comment deletion decrements
`total_comments` by 1 and decrements `total_parent_comments` by 1 exactly for
top-level comments, leaving it unchanged for replies.  The code instead
ASSIGNS `total_parent_comments` (the field sits outside `$inc` in the update
document, so Mongoose casts it to `$set`): deleting the top-level leaf
comment of `dbTopLeaf` (counter previously 5, expected 4) leaves the counter
at `-1`, and deleting the reply of `dbReplyLeaf` (counter previously 5,
expected unchanged) leaves it at `0`.  `total_comments` is decremented
correctly in both cases. -/
theorem deleteComments_parent_counter_set_not_decremented :
    ((deleteComments 1 dbTopLeaf).blogs.map Blog.total_comments = [0]
      ∧ (deleteComments 1 dbTopLeaf).blogs.map Blog.total_parent_comments = [-1])
    ∧ ((deleteComments 2 dbReplyLeaf).blogs.map Blog.total_comments = [1]
      ∧ (deleteComments 2 dbReplyLeaf).blogs.map Blog.total_parent_comments = [0]) := by
  refine ⟨⟨?_, ?_⟩, ?_, ?_⟩ <;>
    simp [deleteComments, deleteCommentsList, deleteStep, removeFirst, updateFirst,
      dbTopLeaf, dbReplyLeaf, blogTop, commentTop, notifTop]

/-- C2.  Cascading delete of comment 1 of `dbTree` (one descendant reply, so
N = 1): both subtree comments are removed and `total_comments` drops by
exactly N + 1 = 2 (from 3 to 1), as the claim states; but
`total_parent_comments`, which the claim requires to drop by exactly 1 (from
2 to 1), ends at 0 — each node of the cascade absolutely assigns it
(`0` or `-1`), the last write being the reply's `0`. -/
theorem deleteComments_cascade_counter_bug :
    (deleteComments 1 dbTree).comments.map Comment.id = [3]
    ∧ (deleteComments 1 dbTree).blogs.map Blog.total_comments = [1]
    ∧ (deleteComments 1 dbTree).blogs.map Blog.total_parent_comments = [0] := by
  refine ⟨?_, ?_, ?_⟩ <;>
    simp [deleteComments, deleteCommentsList, deleteStep, removeFirst, updateFirst,
      dbTree]

/-- C3.  The claim states the like toggle creates exactly one like
notification and reports `liked_by_user = true` when the current state is
not-liked, and deletes it and reports `false` when liked.  The branch in the
source is inverted: toggling from not-liked (`isLikedByUser = false`)
increments `total_likes` to 1 but creates NO notification and returns
`liked_by_user = false`; toggling from liked (`isLikedByUser = true`)
decrements `total_likes` to -1 yet CREATES a like notification and returns
`liked_by_user = true`. -/
theorem likeBlog_inverted_branch :
    (likeBlog 4 0 false dbLike).1 = LikeResult.ok false
    ∧ (likeBlog 4 0 false dbLike).2.notifications = []
    ∧ (likeBlog 4 0 false dbLike).2.blogs.map Blog.total_likes = [1]
    ∧ (likeBlog 4 0 true dbLike).1 = LikeResult.ok true
    ∧ (likeBlog 4 0 true dbLike).2.notifications =
        [{ type := NotifType.like, blog := 0, notification_for := 9, user := 4 }]
    ∧ (likeBlog 4 0 true dbLike).2.blogs.map Blog.total_likes = [-1] := by
  refine ⟨?_, ?_, ?_, ?_, ?_, ?_⟩ <;>
    simp [likeBlog, removeFirst, updateFirst, dbLike]

/-- C4 counterexample.  In `dbTwoReplyRefs` two notifications carry a `reply`
reference to comment 1; after the cascading delete of comment 1 only the first
has been cleared (`findOneAndUpdate` touches a single document): the second
still holds `reply = some 1`, refuting "every Notification whose reply
reference equals the deleted comment's id has that reference cleared". -/
theorem deleteComments_reply_refs_counterexample :
    (deleteComments 1 dbTwoReplyRefs).notifications
      = [{ notifReplyRefA with reply := none }, notifReplyRefB]
    ∧ ¬ (∀ n ∈ (deleteComments 1 dbTwoReplyRefs).notifications,
          n.reply ≠ some 1) := by
  constructor
  · simp [deleteComments, deleteCommentsList, deleteStep, removeFirst, updateFirst,
      dbTwoReplyRefs, notifReplyRefA, notifReplyRefB]
  · intro hall
    have h1 : (deleteComments 1 dbTwoReplyRefs).notifications
        = [{ notifReplyRefA with reply := none }, notifReplyRefB] := by
      simp [deleteComments, deleteCommentsList, deleteStep, removeFirst, updateFirst,
        dbTwoReplyRefs, notifReplyRefA, notifReplyRefB]
    have hb := hall notifReplyRefB (by rw [h1]; simp)
    exact hb rfl

/-- C4 (amended).  Per-node notification effects of the cascading delete:
every comment deleted by the cascade — the root and every cascaded
descendant alike — passes through `deleteStep`, and for arbitrary `c`, `rem`
and `db` that step (i) removes the Notification whose `comment` field equals
the deleted comment's id (unique by hypothesis): none survives and exactly
that many records disappear; and (ii) clears at most the FIRST notification
whose `reply` field equals the deleted comment's id: that record stays in
the store with the reference unset, every record before it and after it kept
verbatim. -/
theorem deleteStep_notification_effects (c : Comment) (rem : List Comment)
    (db : DB)
    (hcu : db.notifications.countP (fun n => n.comment == some c.id) ≤ 1) :
    (∀ n ∈ (deleteStep c rem db).notifications, n.comment ≠ some c.id)
    ∧ ((deleteStep c rem db).notifications.length
        + db.notifications.countP (fun n => n.comment == some c.id)
        = db.notifications.length)
    ∧ (∀ pre n post,
        (removeFirst (fun n => n.comment == some c.id) db.notifications).2
          = pre ++ n :: post →
        (∀ m ∈ pre, m.reply ≠ some c.id) → n.reply = some c.id →
        (deleteStep c rem db).notifications
          = pre ++ ({ n with reply := none }) :: post) := by
  have heq : (deleteStep c rem db).notifications =
      updateFirst (fun n => n.reply == some c.id) (fun n => { n with reply := none })
        ((removeFirst (fun n => n.comment == some c.id) db.notifications).2) := rfl
  refine ⟨?_, ?_, ?_⟩
  · intro n hn
    rw [heq] at hn
    rcases updateFirst_mem hn with hmem | ⟨y, hy, hny⟩
    · have := removeFirst_not_mem hcu n hmem
      simpa using this
    · have := removeFirst_not_mem hcu y hy
      subst hny
      simpa using this
  · rw [heq, updateFirst_length]
    exact removeFirst_length_countP hcu
  · intro pre n post hsplit hpre hn
    rw [heq, hsplit]
    refine updateFirst_append_first_match _ _ ?_ (by simp [hn])
    intro m hm
    simpa using hpre m hm

/-- C4 witness: the per-node theorem instantiated on `dbTopLeaf` (deleting
comment 1, whose unique creation notification is `notifTop`, removes exactly
one notification record). -/
theorem deleteStep_notification_effects_witness :
    (deleteStep commentTop [] dbTopLeaf).notifications.length
      + dbTopLeaf.notifications.countP (fun n => n.comment == some commentTop.id)
      = dbTopLeaf.notifications.length :=
  (deleteStep_notification_effects commentTop [] dbTopLeaf (by decide)).2.1

/-- C5 counterexample.  Deleting comment 1 of `dbTopLeaf` succeeds; calling
the route again on the same id hits `comment.commented_by` on a null
`findOne` result in a chain with no `.catch`: the second call yields the
uncaught `typeError`, which is neither the claimed no-op success nor the
claimed `NotFoundError`. -/
theorem deleteCommentRoute_second_call_counterexample :
    (deleteCommentRoute 3 1 dbTopLeaf).1 = DeleteResult.done
    ∧ (deleteCommentRoute 3 1 (deleteCommentRoute 3 1 dbTopLeaf).2).1
        = DeleteResult.typeError
    ∧ DeleteResult.typeError ≠ DeleteResult.done
    ∧ DeleteResult.typeError ≠ DeleteResult.notFoundError := by
  refine ⟨?_, ?_, by decide, by decide⟩ <;>
    simp [deleteCommentRoute, deleteComments, deleteCommentsList, deleteStep,
      removeFirst, updateFirst, dbTopLeaf, blogTop, commentTop, notifTop]

/-- C5 (amended).  A `deleteComment` request for an id with no stored comment
(in particular, a second call on an already-deleted id) fails with the
uncaught `typeError` — not `NotFoundError` — and leaves the entire state, in
particular both blog counters, unchanged; there is no second decrement. -/
theorem deleteCommentRoute_missing_typeError (u id : Nat) (db : DB)
    (h : db.comments.find? (fun c => c.id == id) = none) :
    deleteCommentRoute u id db = (DeleteResult.typeError, db) := by
  simp [deleteCommentRoute, h]

/-- C5 witness: the amended theorem applied to `dbTopLeaf` and the absent
comment id 5. -/
theorem deleteCommentRoute_missing_typeError_witness :
    deleteCommentRoute 3 5 dbTopLeaf = (DeleteResult.typeError, dbTopLeaf) :=
  deleteCommentRoute_missing_typeError 3 5 dbTopLeaf (by decide)

/-- C6.  A delete request by a user who is neither the comment's
`commented_by` nor its `blog_author` returns the 403 permission error and
returns the state unchanged: comment store, notification store and blog
counters are untouched. -/
theorem deleteCommentRoute_permission_denied (u id : Nat) (db : DB) (c : Comment)
    (hfind : db.comments.find? (fun q => q.id == id) = some c)
    (h1 : u ≠ c.commented_by) (h2 : u ≠ c.blog_author) :
    deleteCommentRoute u id db = (DeleteResult.permissionError, db) := by
  simp [deleteCommentRoute, hfind, h1, h2]

/-- C6 witness: user 5 (neither author 3 nor blog author 9) cannot delete
comment 1 of `dbTopLeaf`. -/
theorem deleteCommentRoute_permission_denied_witness :
    deleteCommentRoute 5 1 dbTopLeaf = (DeleteResult.permissionError, dbTopLeaf) :=
  deleteCommentRoute_permission_denied 5 1 dbTopLeaf commentTop (by decide)
    (by decide) (by decide)

/-- C7.  An `add-comment` request with empty text is rejected with the
validation error before any write: no comment, no notification and no counter
change is persisted (the whole state is returned unchanged). -/
theorem addComment_empty_text_validation (u bid : Nat) (t : String) (a : Nat)
    (r : Option Nat) (db : DB) (h : t.length = 0) :
    addComment u bid t a r db = (AddCommentResult.validationError, db) := by
  simp [addComment, h]

/-- C7 witness: the empty string on `dbTopLeaf`. -/
theorem addComment_empty_text_validation_witness :
    addComment 3 0 "" 9 none dbTopLeaf
      = (AddCommentResult.validationError, dbTopLeaf) :=
  addComment_empty_text_validation 3 0 "" 9 none dbTopLeaf rfl

/-- A successful `/add-comment` request implies the text was non-empty. -/
theorem addComment_text_nonempty {u bid : Nat} {t : String} {a : Nat}
    {r : Option Nat} {db : DB} {cid : Nat}
    (hsucc : (addComment u bid t a r db).1 = AddCommentResult.ok cid) :
    (t.length == 0) = false := by
  cases hlen : (t.length == 0) with
  | false => rfl
  | true =>
      rw [addComment, if_pos (by simp [hlen])] at hsucc
      simp at hsucc

/-- With non-empty text, `/add-comment` updates the blog collection by
applying `blogAddCommentUpdate` to the first blog matching the id, in every
branch (top-level, reply, and even the missing-parent `typeError` path, where
the blog update has already fired before the failing parent lookup). -/
theorem addComment_blogs (u bid : Nat) (t : String) (a : Nat) (r : Option Nat)
    (db : DB) (ht : (t.length == 0) = false) :
    (addComment u bid t a r db).2.blogs =
      updateFirst (fun q => q.id == bid)
        (blogAddCommentUpdate db.nextId r.isSome) db.blogs := by
  cases r with
  | none =>
      rw [addComment, if_neg (by simp [ht])]
  | some pid =>
      rw [addComment, if_neg (by simp [ht])]
      dsimp only
      split
      · rfl
      · rfl

/-- C8.  After a successful `addComment` against an existing blog `b`, the
blog document now retrieved under that id is exactly `b` with the comment id
pushed, `total_comments` incremented by 1, and `total_parent_comments`
incremented by 1 when no parent was supplied and left unchanged when a parent
was supplied. -/
theorem addComment_counter_change (u bid : Nat) (t : String) (a : Nat)
    (r : Option Nat) (db : DB) (b : Blog) (cid : Nat)
    (hsucc : (addComment u bid t a r db).1 = AddCommentResult.ok cid)
    (hblog : db.blogs.find? (fun q => q.id == bid) = some b) :
    (addComment u bid t a r db).2.blogs.find? (fun q => q.id == bid)
      = some (blogAddCommentUpdate db.nextId r.isSome b)
    ∧ (blogAddCommentUpdate db.nextId r.isSome b).total_comments
        = b.total_comments + 1
    ∧ (r = none →
        (blogAddCommentUpdate db.nextId r.isSome b).total_parent_comments
          = b.total_parent_comments + 1)
    ∧ (∀ pid, r = some pid →
        (blogAddCommentUpdate db.nextId r.isSome b).total_parent_comments
          = b.total_parent_comments) := by
  have ht := addComment_text_nonempty hsucc
  obtain ⟨pre, post, h1, h2, h3⟩ :=
    updateFirst_eq_of_find? (fun q => q.id == bid)
      (blogAddCommentUpdate db.nextId r.isSome) hblog
  refine ⟨?_, by simp [blogAddCommentUpdate], ?_, ?_⟩
  · rw [addComment_blogs u bid t a r db ht, h3]
    refine find?_append_first_match _ h2 ?_
    have hb := List.find?_some hblog
    simpa [blogAddCommentUpdate] using hb
  · intro hr; subst hr; simp [blogAddCommentUpdate]
  · intro pid hr; subst hr; simp [blogAddCommentUpdate]

/-- C9.  A successful `addComment` appends exactly one notification: of type
`comment` with recipient the blog author when no parent is supplied, and of
type `reply` with recipient the parent comment's `commented_by` (looked up)
and `replied_on_comment` equal to the parent id when a parent is supplied. -/
theorem addComment_notification_fanout (u bid : Nat) (t : String) (a : Nat)
    (r : Option Nat) (db : DB) (cid : Nat)
    (hsucc : (addComment u bid t a r db).1 = AddCommentResult.ok cid) :
    (r = none →
      (addComment u bid t a r db).2.notifications
        = db.notifications ++
          [{ type := NotifType.comment, blog := bid, notification_for := a,
             user := u, comment := some db.nextId }])
    ∧ (∀ pid p, r = some pid →
        db.comments.find? (fun q => q.id == pid) = some p →
        (addComment u bid t a r db).2.notifications
          = db.notifications ++
            [{ type := NotifType.reply, blog := bid,
               notification_for := p.commented_by, user := u,
               comment := some db.nextId, replied_on_comment := some pid }]) := by
  have ht := addComment_text_nonempty hsucc
  constructor
  · intro hr
    subst hr
    rw [addComment, if_neg (by simp [ht])]
  · intro pid p hr hfindp
    subst hr
    rw [addComment, if_neg (by simp [ht])]
    dsimp only
    rw [find?_append_of_some _ _ hfindp]

/-- The per-node delete step only removes comments and edits `children`
lists, so it preserves the pointwise `isReply`/`parent` relationship. -/
theorem deleteStep_treeInv {c : Comment} {rem : List Comment} {db : DB}
    (h : ∀ q ∈ rem, q.isReply = q.parent.isSome) :
    ∀ q ∈ (deleteStep c rem db).comments, q.isReply = q.parent.isSome := by
  intro q hq
  cases hc : c.parent with
  | none =>
      simp only [deleteStep, hc] at hq
      exact h q hq
  | some pid =>
      simp only [deleteStep, hc] at hq
      rcases updateFirst_mem hq with h1 | ⟨y, hy, rfl⟩
      · exact h q h1
      · simpa using h y hy

/-- The whole cascade preserves the `isReply`/`parent` relationship. -/
theorem deleteCommentsList_treeInv :
    ∀ (ids : List Nat) (db : DB), treeInv db → treeInv (deleteCommentsList ids db) := by
  intro ids db
  induction ids, db using deleteCommentsList.induct with
  | case1 db => intro h; rwa [deleteCommentsList_nil]
  | case2 id rest db l h ih =>
      intro hinv
      rw [deleteCommentsList_cons_none id rest db h]
      exact ih hinv
  | case3 id rest db c rem h ih =>
      intro hinv
      rw [deleteCommentsList_cons_some id rest db h]
      refine ih ?_
      intro q hq
      refine deleteStep_treeInv ?_ q hq
      intro y hy
      refine hinv y ?_
      have : y ∈ (removeFirst (fun q => q.id == id) db.comments).2 := by
        rw [h]; exact hy
      exact removeFirst_mem this

/-- The like toggle never touches the comment collection. -/
theorem likeBlog_comments (u bid : Nat) (lk : Bool) (db : DB) :
    (likeBlog u bid lk db).2.comments = db.comments := by
  rw [likeBlog]
  cases lk with
  | false => rfl
  | true =>
      rw [if_pos rfl]
      dsimp only
      split
      · rfl
      · rfl

/-- Adding a comment preserves the `isReply`/`parent` relationship. -/
theorem addComment_treeInv (u bid : Nat) (t : String) (a : Nat) (r : Option Nat)
    (db : DB) (hinv : treeInv db) : treeInv (addComment u bid t a r db).2 := by
  by_cases ht : (t.length == 0) = true
  · rw [addComment, if_pos (by simpa using ht)]
    exact hinv
  · have ht2 : (t.length == 0) = false := by simpa using ht
    cases r with
    | none =>
        rw [addComment, if_neg (by simp [ht2])]
        intro q hq
        simp only [List.mem_append, List.mem_singleton] at hq
        rcases hq with hq | hq
        · exact hinv q hq
        · subst hq; rfl
    | some pid =>
        rw [addComment, if_neg (by simp [ht2])]
        dsimp only
        split
        · intro q hq
          simp only [List.mem_append, List.mem_singleton] at hq
          rcases hq with hq | hq
          · exact hinv q hq
          · subst hq; rfl
        · intro q hq
          dsimp only at hq
          rcases updateFirst_mem hq with h1 | ⟨y, hy, rfl⟩
          · simp only [List.mem_append, List.mem_singleton] at h1
            rcases h1 with h1 | h1
            · exact hinv q h1
            · subst h1; rfl
          · simp only [List.mem_append, List.mem_singleton] at hy
            rcases hy with hy | hy
            · simpa using hinv y hy
            · subst hy; rfl

/-- Every element of the input survives `updateFirst`, either unchanged or
with `f` applied. -/
theorem updateFirst_mem_image (p : α → Bool) (f : α → α) {l : List α} {x : α}
    (h : x ∈ l) : x ∈ updateFirst p f l ∨ f x ∈ updateFirst p f l := by
  induction l with
  | nil => simp at h
  | cons a as ih =>
    by_cases hp : p a
    · simp only [updateFirst, if_pos hp]
      rcases List.mem_cons.mp h with rfl | h2
      · exact Or.inr (by simp)
      · exact Or.inl (by simp [h2])
    · simp only [updateFirst, if_neg hp]
      rcases List.mem_cons.mp h with rfl | h2
      · exact Or.inl (by simp)
      · rcases ih h2 with h3 | h3
        · exact Or.inl (by simp [h3])
        · exact Or.inr (by simp [h3])

/-- A successful `addComment` stores a comment carrying the fresh id, the
supplied parent reference and the matching `isReply` flag. -/
theorem addComment_new_comment (u bid : Nat) (t : String) (a : Nat)
    (r : Option Nat) (db : DB) (cid : Nat)
    (hsucc : (addComment u bid t a r db).1 = AddCommentResult.ok cid) :
    ∃ c, c ∈ (addComment u bid t a r db).2.comments
      ∧ c.id = cid ∧ c.parent = r ∧ c.isReply = r.isSome := by
  have ht := addComment_text_nonempty hsucc
  cases r with
  | none =>
      rw [addComment, if_neg (by simp [ht])] at hsucc ⊢
      simp only at hsucc
      cases hsucc
      refine ⟨{ id := db.nextId, blog_id := bid, blog_author := a, comment := t,
                commented_by := u, parent := none, isReply := false,
                children := [] }, ?_, rfl, rfl, rfl⟩
      simp
  | some pid =>
      rw [addComment, if_neg (by simp [ht])] at hsucc ⊢
      dsimp only at hsucc ⊢
      split at hsucc
      · simp at hsucc
      · next p heq =>
          simp only at hsucc
          cases hsucc
          rcases updateFirst_mem_image (fun q => q.id == pid)
              (fun q => { q with children := q.children ++ [db.nextId] })
              (show ({ id := db.nextId, blog_id := bid, blog_author := a,
                       comment := t, commented_by := u, parent := some pid,
                       isReply := true, children := [] } : Comment)
                  ∈ db.comments ++
                    [{ id := db.nextId, blog_id := bid, blog_author := a,
                       comment := t, commented_by := u, parent := some pid,
                       isReply := true, children := [] }] by simp)
            with hm | hm
          · exact ⟨_, hm, rfl, rfl, rfl⟩
          · exact ⟨_, hm, rfl, rfl, rfl⟩

/-- The delete step removes the deleted comment's id from its parent's
`children` sequence (as retrieved by a parent lookup afterwards). -/
theorem deleteStep_pulls_child (c : Comment) (rem : List Comment) (db : DB)
    (p : Nat) (hp : c.parent = some p) :
    ∀ q, (deleteStep c rem db).comments.find? (fun y => y.id == p) = some q →
      c.id ∉ q.children := by
  intro q hq
  simp only [deleteStep, hp] at hq
  cases hf : rem.find? (fun y => y.id == p) with
  | none =>
      rw [updateFirst_of_find?_eq_none _ _ hf, hf] at hq
      cases hq
  | some q0 =>
      obtain ⟨pre, post, h1, h2, h3⟩ :=
        updateFirst_eq_of_find?
          (fun (y : Comment) => y.id == p)
          (fun (y : Comment) =>
            { y with children := y.children.filter (fun i => i != c.id) }) hf
      rw [h3] at hq
      have hpred := List.find?_some hf
      rw [find?_append_first_match _ h2 (by simpa using hpred)] at hq
      cases hq
      intro hmem
      have hflt := List.mem_filter.mp hmem
      simp at hflt

/-- C10.  Tree-structure invariant: `addComment`, the delete route and the
like toggle all preserve `is_reply == (parent set)` over the whole comment
store; a successful `addComment` stores a comment whose `isReply` equals
presence of the supplied parent (and whose `parent` is that parent); and the
per-node delete step removes the deleted comment's id from its parent's
`children` sequence whenever the deleted comment has a parent. -/
theorem tree_structure_invariant (db : DB) :
    (∀ u bid t a r, treeInv db → treeInv (addComment u bid t a r db).2)
    ∧ (∀ u bid t a r cid,
        (addComment u bid t a r db).1 = AddCommentResult.ok cid →
        ∃ c, c ∈ (addComment u bid t a r db).2.comments
          ∧ c.id = cid ∧ c.parent = r ∧ c.isReply = r.isSome)
    ∧ (∀ u id, treeInv db → treeInv (deleteCommentRoute u id db).2)
    ∧ (∀ u bid lk, treeInv db → treeInv (likeBlog u bid lk db).2)
    ∧ (∀ c rem p, (c : Comment).parent = some p →
        ∀ q, (deleteStep c rem db).comments.find? (fun y => y.id == p) = some q →
          c.id ∉ q.children) := by
  refine ⟨fun u bid t a r hinv => addComment_treeInv u bid t a r db hinv,
          fun u bid t a r cid h => addComment_new_comment u bid t a r db cid h,
          ?_, ?_,
          fun c rem p hp => deleteStep_pulls_child c rem db p hp⟩
  · intro u id hinv
    rw [deleteCommentRoute]
    cases hfind : db.comments.find? (fun c => c.id == id) with
    | none => exact hinv
    | some c =>
        dsimp only
        split
        · exact deleteCommentsList_treeInv [id] db hinv
        · exact hinv
  · intro u bid lk hinv
    simp only [treeInv] at hinv ⊢
    intro q hq
    rw [likeBlog_comments u bid lk db] at hq
    exact hinv q hq

/-- C10 witness: conjunct 1 of the invariant theorem on `dbTopLeaf`. -/
theorem tree_structure_invariant_witness :
    treeInv (addComment 4 0 "yo" 9 none dbTopLeaf).2 :=
  (tree_structure_invariant dbTopLeaf).1 4 0 "yo" 9 none
    (by unfold treeInv; decide)

/-- C8 witness: a top-level comment on `dbTopLeaf` bumps both counters of
`blogTop` by one. -/
theorem addComment_counter_change_witness :
    (addComment 4 0 "hi" 9 none dbTopLeaf).2.blogs.find? (fun q => q.id == 0)
      = some (blogAddCommentUpdate 2 false blogTop) :=
  (addComment_counter_change 4 0 "hi" 9 none dbTopLeaf blogTop 2
    (by decide) (by decide)).1

/-- C9 witness: replying to comment 1 of `dbTopLeaf` appends exactly one
reply notification addressed to user 3. -/
theorem addComment_notification_fanout_witness :
    (addComment 4 0 "yo" 9 (some 1) dbTopLeaf).2.notifications
      = dbTopLeaf.notifications ++
        [{ type := NotifType.reply, blog := 0, notification_for := 3,
           user := 4, comment := some 2, replied_on_comment := some 1 }] :=
  (addComment_notification_fanout 4 0 "yo" 9 (some 1) dbTopLeaf 2
    (by decide)).2 1 commentTop rfl (by decide)

end BlogServer
